import Mathlib

/-!
Shallow embedding of the bytecode VM in src/src/vm/vm.rs of this
repository, together with theorems settling the frozen claims about it.

The data model (Value, Object, UpValue) lives in source files of the
repository that are not provided; those types are modelled from the
specification (spec.md section 3) and from the way vm.rs itself uses
their operations.  Every VM operation below is translated directly from
vm.rs; line numbers in the doc comments refer to that file.
-/

namespace ZubVM

/-- Modelled from the spec: values carry IEEE-754 double payloads
("Float(f) - IEEE-754 double").  No claim under consideration depends on
the result of float arithmetic, only on variant dispatch, so the payload
is abstracted as a natural number; the arithmetic operations on payloads
below are correspondingly abstract models. -/
abbrev F64 := Nat

/-- Modelled from the spec: abstract model of the f64 addition used by
vm.rs line 344; its numeric result is irrelevant to every claim. -/
def fadd (a b : F64) : F64 := a + b

/-- Modelled from the spec: abstract model of f64 subtraction. -/
def fsub (a b : F64) : F64 := a - b

/-- Modelled from the spec: abstract model of f64 multiplication. -/
def fmul (a b : F64) : F64 := a * b

/-- Modelled from the spec: abstract model of f64 division. -/
def fdiv (a b : F64) : F64 := a / b

/-- Modelled from the spec: the "as usize" conversion applied to a float
index in set_element / get_element (vm.rs lines 418-422, 438-442);
payloads being abstract naturals, the conversion is the identity. -/
def floatToUsize (f : F64) : Nat := f

/-- Modelled from the spec: "A value is one of the variants below ...
Nil, Bool(b), Float(f), Obj(h)" (spec.md section 3).  The source value
is NaN-boxed; decode(v) returns this tagged view, so pattern matching on
this type is the embedding of Value::decode. -/
inductive Value
  | nil
  | bool (b : Bool)
  | float (f : F64)
  | obj (h : Nat)
deriving DecidableEq, Repr

/-- Modelled from the spec: Value::as_object, returning the handle for
an Obj value and None otherwise (used at vm.rs lines 426-428, 444-446). -/
def Value.as_object : Value → Option Nat
  | .obj h => some h
  | _ => none

/-- Modelled from the spec: "A captured variable slot, in one of two
states: Open(stack_index) ... Closed(value)" (spec.md section 3). -/
inductive UpValue
  | Open (idx : Nat)
  | Closed (v : Value)
deriving DecidableEq, Repr

/-- Modelled from the spec and from the uses in vm.rs: UpValue::get
returns the closed value, or the stack index as the error when the
upvalue is still open (vm.rs lines 270-272 reads the stack on Err(i)). -/
def UpValue.get : UpValue → Except Nat Value
  | .Open i => .error i
  | .Closed v => .ok v

/-- Modelled from the spec and from the uses in vm.rs: UpValue::close
replaces an Open slot by Closed of the value its stack index maps to
(vm.rs line 293 closes with the current stack contents). -/
def UpValue.close (f : Nat → Value) : UpValue → UpValue
  | .Open i => .Closed (f i)
  | .Closed v => .Closed v

/-- Modelled from the spec: "An object is one of String(s), Function(f),
Closure(c), NativeFunction, List(l)" (spec.md section 3).  The chunk of a
function and the name fields are omitted: no claim reads them.  A native
function's fn_ptr is represented by an index `fnId` into a table supplied
to `call`, so that the heap type stays strictly positive. -/
inductive Object
  | str (s : String)
  | function (arity : Nat) (upvalueCount : Nat)
  | closure (arity : Nat) (upvalues : List UpValue)
  | nativeFunction (name : String) (arity : Nat) (fnId : Nat)
  | list (elems : List Value)
deriving DecidableEq, Repr

/-- CallFrame from vm.rs lines 14-18: closure handle, instruction
pointer, stack_start. -/
structure CallFrame where
  closure : Nat
  ip : Nat
  stack_start : Nat
deriving DecidableEq, Repr

/-- VM state from vm.rs lines 85-94.  The stack and frame vectors grow
at the end of the list (Vec push/pop act on the last element); the heap
is a list of objects indexed by handle; globals are an association
list. -/
structure VMState where
  heap : List Object
  next_gc : Nat
  globals : List (String × Value)
  open_upvalues : List UpValue
  stack : List Value
  frames : List CallFrame
deriving DecidableEq, Repr

/-- STACK_SIZE from vm.rs line 9. -/
def STACK_SIZE : Nat := 4096

/-- HEAP_GROWTH from vm.rs line 10. -/
def HEAP_GROWTH : Nat := 2

/-- GC_TRIGGER_COUNT from vm.rs line 12. -/
def GC_TRIGGER_COUNT : Nat := 1024

/-- VM::new from vm.rs lines 97-106: empty stack, empty heap, next_gc
initialised to GC_TRIGGER_COUNT, empty globals, frames, open
upvalues. -/
def VMState.new : VMState :=
  { heap := [], next_gc := GC_TRIGGER_COUNT, globals := [],
    open_upvalues := [], stack := [], frames := [] }

/-- VM::pop from vm.rs lines 602-604: Vec::pop with an expect panic on
an empty stack; the panic is modelled as an error result. -/
def VMState.popV (s : VMState) : Except String (Value × VMState) :=
  match s.stack.getLast? with
  | some v => .ok (v, { s with stack := s.stack.dropLast })
  | none => .error "stack to be nonempty"

/-- VM::push from vm.rs lines 593-599: panics on reaching STACK_SIZE
(modelled as an error result), otherwise appends. -/
def VMState.pushV (s : VMState) (v : Value) : Except String VMState :=
  if s.stack.length = STACK_SIZE then .error "STACK OVERFLOW"
  else .ok { s with stack := s.stack ++ [v] }

/-- Heap dereference (VM::deref, vm.rs lines 612-614): get_unchecked on
a dead or invalid handle is undefined behaviour, modelled as an error. -/
def VMState.deref (s : VMState) (h : Nat) : Except String Object :=
  match s.heap.get? h with
  | some o => .ok o
  | none => .error "invalid handle"

/-- The binary_op! macro from vm.rs lines 69-83, parametrised by the
operator instance `op` (the `$op` of the macro, together with the
Into-Value conversion of its result): pop b, pop a; when both decode to
Float push the result and return; otherwise fall through — the source
only carries a `TODO: ERROR HERE` comment there, so both operands stay
popped and nothing is pushed and no error is raised. -/
def binary_op (op : F64 → F64 → Value) (s : VMState) : Except String VMState := do
  let (b, s) ← s.popV
  let (a, s) ← s.popV
  match a, b with
  | .float a, .float b => s.pushV (op a b)
  | _, _ => .ok s

/-- VM::eq from vm.rs lines 542-545: binary_op! with `==` on the f64
payloads, the boolean result converted into a Bool value. -/
def eq : VMState → Except String VMState :=
  binary_op (fun a b => .bool (a = b))

/-- VM::gt from vm.rs lines 547-550. -/
def gt : VMState → Except String VMState :=
  binary_op (fun a b => .bool (b < a))

/-- VM::lt from vm.rs lines 552-555. -/
def lt : VMState → Except String VMState :=
  binary_op (fun a b => .bool (a < b))

/-- VM::sub from vm.rs lines 507-510: binary_op! with `-`. -/
def sub : VMState → Except String VMState :=
  binary_op (fun a b => .float (fsub a b))

/-- VM::mul from vm.rs lines 512-515: binary_op! with `*`. -/
def mul : VMState → Except String VMState :=
  binary_op (fun a b => .float (fmul a b))

/-- VM::div from vm.rs lines 517-520: binary_op! with `/`. -/
def div : VMState → Except String VMState :=
  binary_op (fun a b => .float (fdiv a b))

/-- VM::add from vm.rs lines 336-347: written out rather than via the
macro, and popping a first, then b; Float + Float pushes the sum, any
other pairing falls through silently with both operands popped. -/
def add (s : VMState) : Except String VMState := do
  let (a, s) ← s.popV
  let (b, s) ← s.popV
  match a, b with
  | .float a, .float b => s.pushV (.float (fadd a b))
  | _, _ => .ok s

/-- VM::close_upvalues from vm.rs lines 285-298: swap the open_upvalues
list out, then for each upvalue test
`up.get().map_err(|i| i >= stack_end).is_err()` — note that the boolean
produced by the map_err closure is discarded by is_err, so the test
holds exactly when the upvalue is Open, whatever its offset — and when
it holds, close the upvalue against the current stack and push it back
into open_upvalues.  Upvalues failing the test (the Closed ones) are
dropped.  Rust stack indexing panics out of range; every offset closed
by the claims is in range, and an out-of-range offset is mapped to Nil
here to keep the function total. -/
def closeUpvaluesGo (stack_end : Nat) : List UpValue → VMState → VMState
  | [], acc => acc
  | up :: rest, acc =>
    closeUpvaluesGo stack_end rest
      (if (up.get.mapError (fun i => decide (stack_end ≤ i))).isOk = false then
        { acc with open_upvalues :=
            acc.open_upvalues ++ [up.close (fun i => acc.stack.getD i Value.nil)] }
      else acc)

/-- Entry point of VM::close_upvalues: swap out the list, run the loop
with an emptied open_upvalues. -/
def closeUpvalues (stack_end : Nat) (s : VMState) : VMState :=
  closeUpvaluesGo stack_end s.open_upvalues { s with open_upvalues := [] }

/-- VM::close_upvalue from vm.rs lines 277-283 (the CloseUpvalue
instruction): end := stack.len() - 1, close_upvalues(end), pop.  The
usize subtraction and the pop both require a nonempty stack; an empty
stack panics, modelled as an error. -/
def close_upvalue (s : VMState) : Except String VMState := do
  if s.stack.length = 0 then .error "stack to be nonempty"
  else
    let e := s.stack.length - 1
    let s1 := closeUpvalues e s
    let (_, s2) ← s1.popV
    .ok s2

/-- Root handle enumeration built inside VM::allocate, vm.rs lines
307-317: handles on the stack, then the newly inserted handle, then
handles in globals, then the object values held by closed upvalues
(open upvalues contribute Err from get() and are skipped by ok()). -/
def gcRoots (s : VMState) (handle : Nat) : List Nat :=
  (s.stack.filterMap Value.as_object)
    ++ [handle]
    ++ (s.globals.map Prod.snd).filterMap Value.as_object
    ++ (s.open_upvalues.filterMap (fun u =>
          match u.get with
          | .ok v => v.as_object
          | .error _ => none))

/-- VM::allocate from vm.rs lines 300-323: insert the object (the new
handle is the next heap index), then if heap.len() * sizeof(Object) has
reached next_gc, double next_gc and run the collection excluding the
root handles.  sizeof(Object) is a target-dependent constant, passed in
as `objSize`; the collector Heap::clean_excluding lives outside vm.rs
and is passed in as the function `clean` from the surviving-heap and the
root list.  Returns the handle with the new state. -/
def allocate (objSize : Nat) (clean : List Object → List Nat → List Object)
    (object : Object) (s : VMState) : Nat × VMState :=
  let handle := s.heap.length
  let s1 := { s with heap := s.heap ++ [object] }
  if s1.heap.length * objSize ≥ s1.next_gc then
    let s2 := { s1 with next_gc := s1.next_gc * HEAP_GROWTH }
    let roots := gcRoots s2 handle
    (handle, { s2 with heap := clean s2.heap roots })
  else
    (handle, s1)

/-- VM::call_closure from vm.rs lines 138-153: dereference the handle as
a closure (expect panics otherwise), compute
frame_start = stack.len() - (arity + 1) (usize underflow panics,
modelled as an error), fault with the formatted arity-mismatch message
when the closure arity differs (runtime_error never returns: it exits
the process, so the frame push below it is unreachable), otherwise push
CallFrame { closure := handle, ip := 0, stack_start := frame_start }. -/
def call_closure (handle : Nat) (arity : Nat) (s : VMState) : Except String VMState := do
  let o ← s.deref handle
  match o with
  | .closure carity _ =>
    if s.stack.length < arity + 1 then .error "stack underflow"
    else
      let frame_start := s.stack.length - (arity + 1)
      if carity ≠ arity then
        .error ("arity mismatch: " ++ toString carity ++ " != " ++ toString arity)
      else
        .ok { s with frames := s.frames ++ [⟨handle, 0, frame_start⟩] }
  | _ => .error "redundant cast to succeed"

/-- VM::call from vm.rs lines 184-213: frame_start = stack.len() -
(arity + 1) (underflow panics, modelled as an error), decode the callee
at stack[frame_start].  Only an Obj callee is inspected: a Closure goes
to call_closure; a NativeFunction checks arity (runtime_error exits on
mismatch), applies its function to the heap and the stack slice from
frame_start, then pops the top of the stack with a raw Vec::pop and
pushes the returned value with a raw Vec::push (no frame is pushed); any
other object faults with "bad call".  A callee that is not an Obj falls
out of the `if let` and the instruction does nothing.  The native
fn_ptr table is passed in as `natives`, indexed by the fnId stored in
the object. -/
def call (natives : Nat → List Object → List Value → Value)
    (arity : Nat) (s : VMState) : Except String VMState :=
  if s.stack.length < arity + 1 then .error "stack underflow"
  else
    let frame_start := s.stack.length - (arity + 1)
    let callee := s.stack.getD frame_start Value.nil
    match callee with
    | .obj handle =>
      match s.heap.get? handle with
      | some (.closure _ _) => call_closure handle arity s
      | some (.nativeFunction _ narity fnId) =>
        if narity ≠ arity then
          .error ("arity mismatch: " ++ toString narity ++ " != " ++ toString arity)
        else
          let value := natives fnId s.heap (s.stack.drop frame_start)
          .ok { s with stack := s.stack.dropLast ++ [value] }
      | some _ => .error "bad call"
      | none => .error "invalid handle"
    | _ => .ok s

/-- VM::ret from vm.rs lines 215-229 (the Return instruction): pop the
frame (fault "cannot return from top-level" when there is none), pop the
return value, close upvalues at frame.stack_start when
stack_start < stack.len(), truncate the stack to stack_start, push the
return value back. -/
def ret (s : VMState) : Except String VMState := do
  match s.frames.getLast? with
  | none => .error "cannot return from top-level"
  | some frame =>
    let s1 := { s with frames := s.frames.dropLast }
    let (rv, s2) ← s1.popV
    let s3 := if frame.stack_start < s2.stack.length
              then closeUpvalues frame.stack_start s2
              else s2
    let s4 := { s3 with stack := s3.stack.take frame.stack_start }
    s4.pushV rv

/-- The for loop of VM::list, vm.rs lines 405-409: pop element_count
values, pushing each onto the `content` vector in pop order. -/
def popPushLoop : Nat → List Value → VMState → Except String (List Value × VMState)
  | 0, content, s => .ok (content, s)
  | k + 1, content, s => do
      let (v, s1) ← s.popV
      popPushLoop k (content ++ [v]) s1

/-- VM::list from vm.rs lines 401-413 (the List instruction), taking the
element_count operand already decoded from the chunk byte: run the pop
loop, allocate Object::List(content) (through VM::allocate with its GC
machinery), and push the resulting handle as a value. -/
def listInst (objSize : Nat) (clean : List Object → List Nat → List Object)
    (element_count : Nat) (s : VMState) : Except String VMState := do
  let (content, s1) ← popPushLoop element_count [] s
  let (handle, s2) := allocate objSize clean (.list content) s1
  s2.pushV (.obj handle)

/-- Modelled from the spec: mutable list element write, used by
SetElement.  The spec leaves the out-of-range write underdetermined
("grows or faults"); every claim writes in range, where List::set
replaces the element, as List.set does. -/
def listSet (es : List Value) (i : Nat) (v : Value) : List Value :=
  es.set i v

/-- Modelled from the spec: list element read — "out-of-range read
returns Nil" (spec.md section 3). -/
def listGet (es : List Value) (i : Nat) : Value :=
  es.getD i Value.nil

/-- VM::set_element from vm.rs lines 415-433 (the SetElement
instruction): pop the list value (the top of the stack), pop the index
(panic "Cant index list with non-number" unless it is a Float, the
payload converted with `as usize`), pop the value; then, only when the
list value is an Obj whose object is a List, write the element
(get_mut_unchecked on a bad handle is undefined behaviour, modelled as
an error); for an Obj of any other object, or a non-object value, do
nothing. -/
def set_element (s : VMState) : Except String VMState := do
  let (list, s) ← s.popV
  let (iv, s) ← s.popV
  let idx ← match iv with
    | .float f => Except.ok (floatToUsize f)
    | _ => Except.error "Cant index list with non-number"
  let (value, s) ← s.popV
  match list.as_object with
  | some h =>
    match s.heap.get? h with
    | some (.list es) =>
      .ok { s with heap := s.heap.set h (.list (listSet es idx value)) }
    | some _ => .ok s
    | none => .error "invalid handle"
  | none => .ok s

/-- VM::get_element from vm.rs lines 435-453 (the GetElement
instruction): pop the list value (the top of the stack), pop the index
(panic unless it is a Float), unwrap the list value as an object handle
(panic otherwise), dereference it, unwrap it as a List (panic
otherwise), and push the element at the index (out-of-range reads give
Nil per the List model). -/
def get_element (s : VMState) : Except String VMState := do
  let (list, s) ← s.popV
  let (iv, s) ← s.popV
  let idx ← match iv with
    | .float f => Except.ok (floatToUsize f)
    | _ => Except.error "Cant index list with non-number"
  let h ← match list.as_object with
    | some h => Except.ok h
    | none => Except.error "unwrap on non-object list value"
  let o ← s.deref h
  let es ← match o with
    | .list es => Except.ok es
    | _ => Except.error "unwrap on non-list object"
  s.pushV (listGet es idx)

/-- Variant discriminator: true exactly when the two values decode to
the same variant of the tagged view (the claims speak of operands being
"identically typed"). -/
def sameVariant : Value → Value → Bool
  | .nil, .nil => true
  | .bool _, .bool _ => true
  | .float _, .float _ => true
  | .obj _, .obj _ => true
  | _, _ => false

/-- Discriminator for the callee objects accepted by VM::call: Closure
and NativeFunction dispatch, every other object faults "bad call"
(vm.rs lines 195-211). -/
def Object.callable : Object → Bool
  | .closure _ _ => true
  | .nativeFunction _ _ _ => true
  | _ => false

/-! Helper lemmas about the embedded operations. -/

theorem exceptBindOk {ε α β : Type} (a : α) (f : α → Except ε β) :
    (Except.ok a >>= f) = f a := rfl

theorem exceptBindErr {ε α β : Type} (e : ε) (f : α → Except ε β) :
    ((Except.error e : Except ε α) >>= f) = Except.error e := rfl

theorem popV_concat (s : VMState) (rest : List Value) (v : Value)
    (h : s.stack = rest ++ [v]) :
    s.popV = .ok (v, { s with stack := rest }) := by
  simp [VMState.popV, h]

theorem closeUpvaluesGo_stack (e : Nat) (l : List UpValue) (acc : VMState) :
    (closeUpvaluesGo e l acc).stack = acc.stack := by
  induction l generalizing acc with
  | nil => rfl
  | cons up rest ih =>
    simp only [closeUpvaluesGo]
    rw [ih]
    split <;> rfl

theorem closeUpvaluesGo_frames (e : Nat) (l : List UpValue) (acc : VMState) :
    (closeUpvaluesGo e l acc).frames = acc.frames := by
  induction l generalizing acc with
  | nil => rfl
  | cons up rest ih =>
    simp only [closeUpvaluesGo]
    rw [ih]
    split <;> rfl

theorem closeUpvalues_stack (e : Nat) (s : VMState) :
    (closeUpvalues e s).stack = s.stack :=
  closeUpvaluesGo_stack e s.open_upvalues _

theorem closeUpvalues_frames (e : Nat) (s : VMState) :
    (closeUpvalues e s).frames = s.frames :=
  closeUpvaluesGo_frames e s.open_upvalues _

theorem popPushLoop_concat (vs : List Value) : ∀ (rest content : List Value) (s : VMState),
    s.stack = rest ++ vs →
    popPushLoop vs.length content s
      = .ok (content ++ vs.reverse, { s with stack := rest }) := by
  induction vs using List.reverseRecOn with
  | nil =>
    intro rest content s h
    simp only [List.append_nil] at h
    cases s with
    | mk heap gc gl ou st fr => simp_all [popPushLoop]
  | append_singleton ys y ih =>
    intro rest content s h
    have hst : s.stack = (rest ++ ys) ++ [y] := by simp [h]
    have h1 := popV_concat s (rest ++ ys) y hst
    simp only [List.length_append, List.length_cons, List.length_nil]
    simp only [popPushLoop, h1, exceptBindOk]
    have h2 := ih rest (content ++ [y]) { s with stack := rest ++ ys } rfl
    simp [h2]

/-! Theorems settling the claims. -/

/-- C1: the claim states that close_upvalues(end) closes exactly the
Open upvalues with offset >= end and removes them from open_upvalues,
leaving Open upvalues with offset < end untouched.  The code does not:
the bound computed by the map_err closure is discarded by is_err, so
every Open upvalue is closed regardless of its offset, and the freshly
closed upvalues are pushed back into open_upvalues.  At the failing
input below — one Open upvalue at offset 0, end = 1 — the upvalue has
offset 0 < 1 and per the claim must remain Open and in the list, yet the
code turns it into Closed(stack[0]) and keeps it in the list; the
CloseUpvalue instruction on the same state likewise closes an upvalue
that does not refer to the top-of-stack slot. -/
theorem c1_close_upvalues_ignores_end :
    (closeUpvalues 1 { VMState.new with stack := [.float 7, .float 8], open_upvalues := [.Open 0] }).open_upvalues
      = [UpValue.Closed (Value.float 7)]
    ∧ close_upvalue { VMState.new with stack := [.float 7, .float 8], open_upvalues := [.Open 0] }
      = .ok { VMState.new with stack := [.float 7], open_upvalues := [UpValue.Closed (Value.float 7)] }
    ∧ [UpValue.Closed (Value.float 7)] ≠ [UpValue.Open 0] := by
  refine ⟨rfl, rfl, by decide⟩

/-- C2 counterexample: the claim states that Eq on operands of different
variants pushes Bool(false), replacing the two operands by one Bool.  On
the concrete operands a = Bool(true), b = Nil the code pops both and
pushes nothing: the resulting stack is empty, not [Bool false]. -/
theorem c2_eq_mixed_counterexample :
    eq { VMState.new with stack := [.bool true, .nil] } = .ok VMState.new
    ∧ VMState.new.stack ≠ [Value.bool false] := by
  refine ⟨rfl, by decide⟩

/-- C2 amended: executing Eq on two operands whose variants are not
identically typed pops both operands and pushes nothing — the comparison
is silently dropped (the source's binary_op! macro only carries a TODO
comment in that branch) — and never faults; the net stack effect is -2,
not the claimed replacement by one Bool. -/
theorem c2_eq_mixed_pops_both_pushes_nothing (s : VMState) (rest : List Value)
    (a b : Value)
    (hstack : s.stack = rest ++ [a, b])
    (hmix : sameVariant a b = false) :
    eq s = .ok { s with stack := rest } := by
  have h1 : s.popV = .ok (b, { s with stack := rest ++ [a] }) :=
    popV_concat s (rest ++ [a]) b (by simpa using hstack)
  have h2 : ({ s with stack := rest ++ [a] } : VMState).popV
      = .ok (a, { s with stack := rest }) := popV_concat _ rest a rfl
  simp only [eq, binary_op, h1, h2, exceptBindOk]
  cases a <;> cases b <;> simp_all [sameVariant]

/-- C2 witness: the amended theorem applied at a = Bool(true), b = Nil
on the stack [Bool true, Nil]. -/
theorem c2_eq_mixed_witness :
    eq { VMState.new with stack := [.bool true, .nil] }
      = .ok { VMState.new with stack := [] } :=
  c2_eq_mixed_pops_both_pushes_nothing _ [] (.bool true) .nil rfl (by decide)

/-- C3: the claim states that Add, Sub, Mul and Div on operands that are
not both Float raise the runtime error "type error in binary op".  The
code raises no error at all: the non-Float branch of binary_op! holds
only the comment TODO ERROR HERE, and VM::add likewise falls through, so
at the failing input (operands Nil and Bool(true)) all four instructions
return normally with both operands popped and nothing pushed.  The spec
is clearly the intent — the source comment announces the missing error —
so this is a code bug. -/
theorem c3_arith_nonfloat_silently_continues :
    add { VMState.new with stack := [.nil, .bool true] } = .ok VMState.new
    ∧ sub { VMState.new with stack := [.nil, .bool true] } = .ok VMState.new
    ∧ mul { VMState.new with stack := [.nil, .bool true] } = .ok VMState.new
    ∧ div { VMState.new with stack := [.nil, .bool true] } = .ok VMState.new
    ∧ (Except.ok VMState.new : Except String VMState)
        ≠ .error "type error in binary op" := by
  refine ⟨rfl, rfl, rfl, rfl, fun hcon => Except.noConfusion hcon⟩

/-- C4 counterexample: the claim states that Call on a callee that is
neither a Closure nor a NativeFunction — including non-object values
such as Float — faults with a bad-call runtime error.  On the concrete
callee Float(3) with arity 0 the code returns normally with the state
unchanged: a non-object callee falls out of the `if let Variant::Obj`
and the instruction does nothing. -/
theorem c4_call_float_callee_counterexample :
    call (fun _ _ _ => Value.nil) 0 { VMState.new with stack := [.float 3] }
      = .ok { VMState.new with stack := [.float 3] }
    ∧ (Except.ok { VMState.new with stack := [.float 3] } : Except String VMState)
        ≠ .error "bad call" := by
  refine ⟨rfl, fun hcon => Except.noConfusion hcon⟩

/-- C4 amended: executing Call n when the callee slot holds an Obj whose
object is neither a Closure nor a NativeFunction faults with the
bad-call runtime error, but a non-object callee (Float, Bool, Nil) is
silently skipped: the call instruction returns with the state
unchanged, no fault, no frame. -/
theorem c4_call_bad_callee (natives : Nat → List Object → List Value → Value)
    (arity : Nat) (s : VMState) (h : arity + 1 ≤ s.stack.length) :
    (∀ (hdl : Nat) (o : Object),
        s.stack.getD (s.stack.length - (arity + 1)) Value.nil = .obj hdl →
        s.heap.get? hdl = some o →
        o.callable = false →
        call natives arity s = .error "bad call")
    ∧ ((s.stack.getD (s.stack.length - (arity + 1)) Value.nil).as_object = none →
        call natives arity s = .ok s) := by
  constructor
  · intro hdl o hc hh ho
    simp only [call]
    rw [if_neg (by omega), hc]
    simp only [hh]
    cases o <;> simp_all [Object.callable]
  · intro hnone
    simp only [call]
    rw [if_neg (by omega)]
    cases hv : s.stack.getD (s.stack.length - (arity + 1)) Value.nil <;>
      simp_all [Value.as_object]

/-- C4 witness: the amended theorem applied at a String-object callee
(faulting "bad call") and at a Float callee (silently skipped). -/
theorem c4_call_bad_callee_witness :
    call (fun _ _ _ => Value.nil) 0
      { VMState.new with heap := [Object.str "s"], stack := [.obj 0] }
      = .error "bad call"
    ∧ call (fun _ _ _ => Value.nil) 0 { VMState.new with stack := [.bool false] }
      = .ok { VMState.new with stack := [.bool false] } := by
  constructor
  · exact (c4_call_bad_callee (fun _ _ _ => Value.nil) 0
      { VMState.new with heap := [Object.str "s"], stack := [.obj 0] }
      (by decide)).1 0 (Object.str "s") (by decide) (by decide) (by decide)
  · exact (c4_call_bad_callee (fun _ _ _ => Value.nil) 0
      { VMState.new with stack := [.bool false] } (by decide)).2 (by decide)

/-- C5: for a frame entered by a Closure call with arity n at entry
stack length L (the call protocol records stack_start = L - (n+1)),
executing Return pops the return value, truncates the stack to
frame.stack_start, pops the frame, and pushes the return value back, so
the resulting stack length is L - (n+1) + 1 with the return value on
top and the frame removed. -/
theorem c5_return_stack_effect (s : VMState) (fs : List CallFrame)
    (frame : CallFrame) (n L : Nat) (init : List Value) (rv : Value)
    (hstack : s.stack = init ++ [rv])
    (hframes : s.frames = fs ++ [frame])
    (_hL : n + 1 ≤ L)
    (hss : frame.stack_start = L - (n + 1))
    (hlen : frame.stack_start ≤ init.length)
    (hcap : frame.stack_start < STACK_SIZE) :
    ∃ s', ret s = .ok s'
      ∧ s'.stack = init.take frame.stack_start ++ [rv]
      ∧ s'.stack.length = L - (n + 1) + 1
      ∧ s'.stack.getLast? = some rv
      ∧ s'.frames = fs := by
  have hgl : s.frames.getLast? = some frame := by
    rw [hframes]; exact List.getLast?_concat _
  have hdl : s.frames.dropLast = fs := by
    rw [hframes]; exact List.dropLast_concat
  have h1 : ({ s with frames := s.frames.dropLast } : VMState).popV
      = .ok (rv, { s with frames := s.frames.dropLast, stack := init }) :=
    popV_concat _ init rv hstack
  simp only [ret, hgl, h1, exceptBindOk]
  set s2 : VMState := { s with frames := s.frames.dropLast, stack := init } with hs2
  set s3 : VMState := if frame.stack_start < s2.stack.length
      then closeUpvalues frame.stack_start s2 else s2 with hs3
  have h3stack : s3.stack = init := by
    rw [hs3]; split
    · rw [closeUpvalues_stack]
    · rfl
  have h3frames : s3.frames = fs := by
    rw [hs3]; split
    · rw [closeUpvalues_frames]; exact hdl
    · exact hdl
  have hpush : ({ s3 with stack := s3.stack.take frame.stack_start } : VMState).pushV rv
      = .ok { s3 with stack := s3.stack.take frame.stack_start ++ [rv] } := by
    rw [VMState.pushV]
    rw [if_neg]
    simp [h3stack, STACK_SIZE] at hcap ⊢
    omega
  refine ⟨{ s3 with stack := s3.stack.take frame.stack_start ++ [rv] }, hpush, ?_, ?_, ?_, ?_⟩
  · simp [h3stack]
  · simp [h3stack]
    omega
  · exact List.getLast?_concat _
  · exact h3frames

/-- C5 witness: the theorem applied to a frame with stack_start = 0
entered at stack length L = 3 with arity n = 2, returning Float(99). -/
theorem c5_return_stack_effect_witness :
    ∃ s', ret { VMState.new with stack := [.obj 9, .float 1, .float 99], frames := [⟨0, 5, 0⟩] } = .ok s'
      ∧ s'.stack = ([Value.obj 9, Value.float 1].take 0) ++ [Value.float 99]
      ∧ s'.stack.length = 3 - (2 + 1) + 1
      ∧ s'.stack.getLast? = some (Value.float 99)
      ∧ s'.frames = [] :=
  c5_return_stack_effect _ [] ⟨0, 5, 0⟩ 2 3 [.obj 9, .float 1] (.float 99)
    rfl rfl (by omega) rfl (by decide) (by decide)

set_option maxRecDepth 8192 in
/-- C6 counterexample: the claim states the initial collection threshold
equals 1024 × sizeof(Object).  In the code next_gc is initialised to
GC_TRIGGER_COUNT = 1024 plain, and the trigger compares
heap.len() * sizeof(Object) against it: with sizeof(Object) = 8, a
collection already runs when the 128th object is inserted
(128 * 8 = 1024 bytes), far below the claimed initial threshold of
1024 * 8 = 8192 bytes — observable here as the threshold doubling to
2048 and the collector (instantiated to drop everything) emptying the
heap. -/
theorem c6_initial_threshold_counterexample :
    VMState.new.next_gc = GC_TRIGGER_COUNT
    ∧ (allocate 8 (fun _ _ => []) (Object.str "x") { VMState.new with heap := List.replicate 127 (Object.str "o") }).2.next_gc = 2048
    ∧ (allocate 8 (fun _ _ => []) (Object.str "x") { VMState.new with heap := List.replicate 127 (Object.str "o") }).2.heap = []
    ∧ 128 * 8 < 1024 * 8 := by
  refine ⟨rfl, by decide, by decide, by omega⟩

/-- C6 amended: in allocate, a collection is triggered exactly when
heap.len() * sizeof(Object) (computed after the insertion) reaches the
current next_gc threshold; the initial threshold is GC_TRIGGER_COUNT =
1024 — not 1024 × sizeof(Object) — and on each collection next_gc is
multiplied by HEAP_GROWTH = 2, with the newly inserted handle included
in the root set passed to the collector. -/
theorem c6_allocate_trigger_policy (objSize : Nat)
    (clean : List Object → List Nat → List Object) (object : Object)
    (s : VMState) :
    VMState.new.next_gc = 1024
    ∧ (allocate objSize clean object s).1 = s.heap.length
    ∧ (if (s.heap.length + 1) * objSize ≥ s.next_gc then
        (allocate objSize clean object s).2.next_gc = s.next_gc * HEAP_GROWTH
        ∧ (allocate objSize clean object s).2.heap
            = clean (s.heap ++ [object])
                (gcRoots { s with heap := s.heap ++ [object], next_gc := s.next_gc * HEAP_GROWTH } s.heap.length)
        ∧ s.heap.length
            ∈ gcRoots { s with heap := s.heap ++ [object], next_gc := s.next_gc * HEAP_GROWTH } s.heap.length
      else
        (allocate objSize clean object s).2 = { s with heap := s.heap ++ [object] }) := by
  refine ⟨rfl, ?_, ?_⟩
  · simp only [allocate, List.length_append, List.length_cons, List.length_nil]
    split <;> rfl
  · simp only [allocate, List.length_append, List.length_cons, List.length_nil]
    split
    · exact ⟨rfl, rfl, by simp [gcRoots]⟩
    · rfl

/-- C7 counterexample: the claim states that after a native call the
stack no longer contains the callee.  On a NativeFunction of arity 1
the code pops the top of the stack — the last argument, not the callee
slot — so the callee Obj(0) is still on the stack after the call. -/
theorem c7_native_call_callee_remains :
    call (fun _ _ _ => Value.nil) 1 { VMState.new with heap := [Object.nativeFunction "f" 1 0], stack := [.obj 0, .float 5] }
      = .ok { VMState.new with heap := [Object.nativeFunction "f" 1 0], stack := [.obj 0, .nil] }
    ∧ Value.obj 0 ∈ [Value.obj 0, Value.nil] := by
  refine ⟨rfl, by decide⟩

/-- C7 amended: for a Call n whose callee is a NativeFunction with
matching arity, the VM invokes the native function on the heap and the
stack slice from frame_start, pops the top of the stack (which is the
callee slot only when n = 0; for n >= 1 it is the last argument, and
the callee remains on the stack), pushes the returned value, and pushes
no call frame — the frame stack is unchanged, as the resulting state
equation shows. -/
theorem c7_native_call_effect (natives : Nat → List Object → List Value → Value)
    (arity : Nat) (s : VMState) (hdl fnId : Nat) (name : String)
    (h : arity + 1 ≤ s.stack.length)
    (hc : s.stack.getD (s.stack.length - (arity + 1)) Value.nil = .obj hdl)
    (hh : s.heap.get? hdl = some (.nativeFunction name arity fnId)) :
    call natives arity s
      = .ok { s with stack := s.stack.dropLast ++ [natives fnId s.heap (s.stack.drop (s.stack.length - (arity + 1)))] } := by
  simp only [call]
  rw [if_neg (by omega), hc]
  simp only [hh]
  simp

/-- C7 witness: the amended theorem applied to a NativeFunction of
arity 1 returning Nil; the callee Obj(0) remains on the stack. -/
theorem c7_native_call_effect_witness :
    call (fun _ _ _ => Value.nil) 1 { VMState.new with heap := [Object.nativeFunction "g" 1 0], stack := [.obj 0, .float 5] }
      = .ok { VMState.new with heap := [Object.nativeFunction "g" 1 0], stack := [.obj 0, .nil] } := by
  have := c7_native_call_effect (fun _ _ _ => Value.nil) 1
    { VMState.new with heap := [Object.nativeFunction "g" 1 0], stack := [.obj 0, .float 5] }
    0 0 "g" (by decide) (by decide) (by decide)
  simpa using this

/-- C8 counterexample: the claim states that GetElement pops the index
from the top of the stack and the list from beneath it.  On a stack laid
out that way — list Obj(0) beneath, index Float(0) on top, the heap
holding List([Float 42]) at handle 0 — the code faults: it pops the TOP
value as the list operand, finds the Float where it expects the list,
and panics on the non-numeric index check, instead of pushing
list[0] = Float(42) as the claim requires. -/
theorem c8_get_element_operand_order_counterexample :
    get_element { VMState.new with heap := [Object.list [Value.float 42]], stack := [.obj 0, .float 0] }
      = .error "Cant index list with non-number"
    ∧ (Except.error "Cant index list with non-number" : Except String VMState)
        ≠ .ok { VMState.new with heap := [Object.list [Value.float 42]], stack := [.float 42] } := by
  refine ⟨rfl, fun hcon => Except.noConfusion hcon⟩

/-- C8 amended: the pop order is the reverse of the claimed one.
GetElement pops the LIST from the top of the stack and the index from
beneath it, then pushes list[idx] (an out-of-range read pushes Nil);
SetElement pops the list first (from the top), then the index, then the
value, and sets list[idx] to the value. -/
theorem c8_element_ops_pop_list_first :
    (∀ (s : VMState) (rest es : List Value) (hdl i : Nat),
        s.stack = rest ++ [.float i, .obj hdl] →
        s.heap.get? hdl = some (.list es) →
        rest.length < STACK_SIZE →
        get_element s = .ok { s with stack := rest ++ [listGet es i] })
    ∧ (∀ (s : VMState) (rest es : List Value) (v : Value) (hdl i : Nat),
        s.stack = rest ++ [v, .float i, .obj hdl] →
        s.heap.get? hdl = some (.list es) →
        set_element s
          = .ok { s with stack := rest, heap := s.heap.set hdl (.list (listSet es i v)) }) := by
  constructor
  · intro s rest es hdl i hstack hheap hcap
    have h1 : s.popV = .ok (.obj hdl, { s with stack := rest ++ [.float i] }) :=
      popV_concat s (rest ++ [.float i]) (.obj hdl) (by simpa using hstack)
    have h2 : ({ s with stack := rest ++ [.float i] } : VMState).popV
        = .ok (.float i, { s with stack := rest }) := popV_concat _ rest _ rfl
    simp only [get_element, h1, h2, exceptBindOk, Value.as_object, VMState.deref, hheap]
    simp only [exceptBindOk, VMState.pushV, floatToUsize]
    rw [if_neg (by simp [STACK_SIZE] at hcap ⊢; omega)]
  · intro s rest es v hdl i hstack hheap
    have h1 : s.popV = .ok (.obj hdl, { s with stack := rest ++ [v, .float i] }) :=
      popV_concat s (rest ++ [v, .float i]) (.obj hdl) (by simpa using hstack)
    have h2 : ({ s with stack := rest ++ [v, .float i] } : VMState).popV
        = .ok (.float i, { s with stack := rest ++ [v] }) :=
      popV_concat _ (rest ++ [v]) _ (by simp)
    have h3 : ({ s with stack := rest ++ [v] } : VMState).popV
        = .ok (v, { s with stack := rest }) := popV_concat _ rest _ rfl
    simp only [set_element, h1, h2, h3, exceptBindOk, Value.as_object, hheap, floatToUsize]

/-- C8 witness: the amended theorem applied to a one-element list for
GetElement (pushing Float(42)) and a two-element list for SetElement
(overwriting index 1 with Float(9)). -/
theorem c8_element_ops_pop_list_first_witness :
    get_element { VMState.new with heap := [Object.list [Value.float 42]], stack := [.float 0, .obj 0] }
      = .ok { VMState.new with heap := [Object.list [Value.float 42]], stack := [.float 42] }
    ∧ set_element { VMState.new with heap := [Object.list [Value.float 1, Value.float 2]], stack := [.float 9, .float 1, .obj 0] }
      = .ok { VMState.new with heap := [Object.list [Value.float 1, Value.float 9]], stack := [] } := by
  constructor
  · have := c8_element_ops_pop_list_first.1
      { VMState.new with heap := [Object.list [Value.float 42]], stack := [.float 0, .obj 0] }
      [] [Value.float 42] 0 0 rfl rfl (by decide)
    simpa [listGet] using this
  · have := c8_element_ops_pop_list_first.2
      { VMState.new with heap := [Object.list [Value.float 1, Value.float 2]], stack := [.float 9, .float 1, .obj 0] }
      [] [Value.float 1, Value.float 2] (.float 9) 0 1 rfl rfl
    simpa [listSet] using this

/-- C9: a Call n dispatching to a Closure whose arity m differs from n
faults deterministically with the arity-mismatch runtime error.
runtime_error terminates the process (vm.rs line 465), modelled as the
error result: execution never reaches the CallFrame push that follows
the check in call_closure, so no frame is pushed and no user code of
the callee runs. -/
theorem c9_closure_arity_mismatch_faults (s : VMState) (handle n m : Nat)
    (ups : List UpValue)
    (hh : s.heap.get? handle = some (.closure m ups))
    (hlen : n + 1 ≤ s.stack.length)
    (hne : m ≠ n) :
    call_closure handle n s
      = .error ("arity mismatch: " ++ toString m ++ " != " ++ toString n) := by
  simp only [call_closure, VMState.deref, hh, exceptBindOk]
  rw [if_neg (by omega), if_pos hne]

/-- C9 witness: the theorem applied to a Closure of arity 2 called with
arity 1. -/
theorem c9_closure_arity_mismatch_faults_witness :
    call_closure 0 1 { VMState.new with heap := [Object.closure 2 []], stack := [.obj 0, .float 1] }
      = .error ("arity mismatch: " ++ toString 2 ++ " != " ++ toString 1) :=
  c9_closure_arity_mismatch_faults
    { VMState.new with heap := [Object.closure 2 []], stack := [.obj 0, .float 1] }
    0 1 2 [] rfl (by decide) (by decide)

/-- C10: executing List n on a stack ending with the n pushed values
v1..vn (vn last, hence on top) pops them top-first and builds the list
content in pop order, so the allocated list is the REVERSE of the push
order: element 0 is vn and element n-1 is v1.  Stated under the
hypotheses that the allocation stays below the GC threshold (so the
collector is not invoked) and the push does not overflow. -/
theorem c10_list_elements_reverse_push_order (objSize : Nat)
    (clean : List Object → List Nat → List Object) (s : VMState)
    (rest vs : List Value) (n : Nat)
    (hstack : s.stack = rest ++ vs)
    (hn : vs.length = n)
    (hgc : (s.heap.length + 1) * objSize < s.next_gc)
    (hcap : rest.length < STACK_SIZE) :
    listInst objSize clean n s
      = .ok { s with heap := s.heap ++ [.list vs.reverse], stack := rest ++ [.obj s.heap.length] } := by
  subst hn
  have hloop := popPushLoop_concat vs rest [] s hstack
  simp only [listInst, hloop, exceptBindOk, List.nil_append]
  simp only [allocate, List.length_append, List.length_cons, List.length_nil, Nat.zero_add]
  rw [if_neg (by omega)]
  simp only [VMState.pushV]
  rw [if_neg (by simp [STACK_SIZE] at hcap ⊢; omega)]

/-- C10 witness: List 2 on the stack [Float 1, Float 2, Float 3] (Float
3 pushed last) builds List([Float 3, Float 2]): element 0 is the
last-pushed value. -/
theorem c10_list_elements_reverse_push_order_witness :
    listInst 8 (fun h _ => h) 2 { VMState.new with stack := [.float 1, .float 2, .float 3] }
      = .ok { VMState.new with heap := [Object.list [Value.float 3, Value.float 2]], stack := [.float 1, .obj 0] } := by
  have := c10_list_elements_reverse_push_order 8 (fun h _ => h)
    { VMState.new with stack := [.float 1, .float 2, .float 3] }
    [.float 1] [.float 2, .float 3] 2 rfl rfl (by decide) (by decide)
  simpa using this

end ZubVM
